import Mathlib

/-!
Shallow embedding of the MIDI rhythm-analysis core (the four analysis
functions `analyze_note_density`, `find_rhythm_patterns`,
`analyze_syncopation`, `analyze_groove` of the notebook), over exact
rational arithmetic.

Modelling conventions, faithful to the Python source:
* Python's builtin `round` is round-half-to-even (banker's rounding);
  it is embedded as `pyround`.
* Python's float `%` returns `a - b * floor (a / b)` for `b ≠ 0`
  (result has the sign of the divisor); embedded as `pymod`.
* `np.arange(0, stop, step)` produces `max 0 ⌈stop / step⌉` points
  `0, step, 2*step, …`; embedded as `np_arange`.  With `step = 0` numpy
  raises `ZeroDivisionError`.
* A Python `ZeroDivisionError` is raised only when the offending
  division is actually executed, i.e. only when the enclosing loop body
  runs at least once.  Each analysis function therefore returns
  `Except AnalysisError _`, erroring exactly under the conditions in
  which the Python code raises.
* `defaultdict(int)` histograms keyed by tuples of quantized IOIs are
  modelled as the `Multiset` of recorded 4-grams (a 4-gram as a
  `List ℚ` of length 4): the count stored under a key is
  `Multiset.count`, matching the per-occurrence increments of the code.
-/

/-- A note event as produced by `extract_note_events`: start and end time
in seconds, pitch and velocity (MIDI 0–127), instrument program id. -/
structure NoteEvent where
  start : ℚ
  «end» : ℚ
  pitch : ℕ
  velocity : ℕ
  instrument : ℕ
deriving DecidableEq, Repr

/-- The only failure the four analysis functions can produce:
a Python `ZeroDivisionError` from dividing (or `%`-ing) by zero. -/
inductive AnalysisError where
  | zeroDivision
deriving DecidableEq, Repr

/-- A record emitted by `analyze_syncopation`:
`{'time': note['start'], 'score': …}`. -/
structure SyncopationRecord where
  time : ℚ
  score : ℚ
deriving DecidableEq, Repr

/-- A record emitted by `analyze_groove`:
`{'time': note['start'], 'deviation': …}`. -/
structure GrooveRecord where
  time : ℚ
  deviation : ℚ
deriving DecidableEq, Repr

/-- Python's builtin `round` to an integer: round half to even. -/
def pyround (x : ℚ) : ℤ :=
  if x - ⌊x⌋ < 1/2 then ⌊x⌋
  else if 1/2 < x - ⌊x⌋ then ⌊x⌋ + 1
  else if ⌊x⌋ % 2 = 0 then ⌊x⌋ else ⌊x⌋ + 1

/-- Python's float modulo for a nonzero divisor:
`a % b = a - b * floor (a / b)`. -/
def pymod (a b : ℚ) : ℚ := a - b * ⌊a / b⌋

/-- Embedding of `numpy.arange(0, stop, step)` for `step ≠ 0`: the points
`0, step, 2*step, …`, `max 0 ⌈stop / step⌉` of them. -/
def np_arange (stop step : ℚ) : List ℚ :=
  (List.range (Int.toNat ⌈stop / step⌉)).map (fun (k : ℕ) => (k : ℚ) * step)

/-- The `max_time = max(event['end'] for event in note_events)` of
`analyze_note_density`, for a nonempty list. -/
def max_end : List NoteEvent → ℚ
  | [] => 0
  | n :: ns => ns.foldl (fun m nt => max m nt.«end») n.«end»

/-- Embedding of `analyze_note_density(note_events, window_size)`: empty input short-
circuits to two empty lists; a zero window makes `np.arange` raise
`ZeroDivisionError`; otherwise each sample point `t` counts the notes
with `note['start'] <= t <= note['end']`. -/
def analyze_note_density (note_events : List NoteEvent) (window_size : ℚ) :
    Except AnalysisError (List ℚ × List ℕ) :=
  if note_events.isEmpty then .ok ([], [])
  else if window_size = 0 then .error .zeroDivision
  else
    let time_points := np_arange (max_end note_events) window_size
    .ok (time_points,
      time_points.map (fun t =>
        (note_events.filter (fun nt =>
          decide (nt.start ≤ t ∧ t ≤ nt.«end»))).length))

/-- One quantized inter-onset interval of `find_rhythm_patterns`:
`round(diff / quantization) * quantization`. -/
def quantize_ioi (diff quantization : ℚ) : ℚ :=
  (pyround (diff / quantization) : ℚ) * quantization

/-- The sequence of quantized IOIs
`round((notes[i].start - notes[i-1].start) / quantization) * quantization`
for `i = 1 … len-1`. -/
def quantized_iois (note_events : List NoteEvent) (quantization : ℚ) :
    List ℚ :=
  (note_events.tail.zip note_events).map
    (fun p => quantize_ioi (p.1.start - p.2.start) quantization)

/-- One step of the rolling-buffer loop of `find_rhythm_patterns`:
append the new IOI to `current_pattern`; once it holds 4 entries record
the 4-tuple and drop the oldest entry. -/
def gram_step (st : List (List ℚ) × List ℚ) (ioi : ℚ) :
    List (List ℚ) × List ℚ :=
  let current := st.2 ++ [ioi]
  if current.length = 4 then (st.1 ++ [current], current.drop 1)
  else (st.1, current)

/-- The list of 4-grams recorded by `find_rhythm_patterns`, in the order
the loop records them. -/
def find_rhythm_grams (note_events : List NoteEvent) (quantization : ℚ) :
    List (List ℚ) :=
  ((quantized_iois note_events quantization).foldl gram_step ([], [])).1

/-- Embedding of `find_rhythm_patterns(note_events, quantization)`: the division by
`quantization` executes iff the loop body runs, i.e. iff there are at
least 2 notes, so only then can `quantization = 0` raise.  The
`defaultdict(int)` histogram is the multiset of recorded 4-grams; the
count held under a key is `Multiset.count`. -/
def find_rhythm_patterns (note_events : List NoteEvent) (quantization : ℚ) :
    Except AnalysisError (Multiset (List ℚ)) :=
  if 2 ≤ note_events.length ∧ quantization = 0 then .error .zeroDivision
  else .ok ↑(find_rhythm_grams note_events quantization)

/-- The per-note body of `analyze_syncopation`: emit a record iff the
note is not on a strong beat (`position_in_bar % 1.0 < 0.1`) and its
normalized velocity exceeds 0.5. -/
def syncopation_emit (beats_per_bar : ℚ) (note : NoteEvent) :
    Option SyncopationRecord :=
  let position_in_bar := pymod note.start beats_per_bar
  let fractional := pymod position_in_bar 1
  let velocity_factor := (note.velocity : ℚ) / 127
  if ¬ fractional < 1/10 ∧ velocity_factor > 1/2 then
    some ⟨note.start, velocity_factor * (1 - fractional)⟩
  else none

/-- Embedding of `analyze_syncopation(note_events, beats_per_bar)`: the
`% beats_per_bar` executes once per note, so `beats_per_bar = 0` raises
iff the list is nonempty. -/
def analyze_syncopation (note_events : List NoteEvent) (beats_per_bar : ℚ) :
    Except AnalysisError (List SyncopationRecord) :=
  if note_events.isEmpty then .ok []
  else if beats_per_bar = 0 then .error .zeroDivision
  else .ok (note_events.filterMap (syncopation_emit beats_per_bar))

/-- The per-note body of `analyze_groove`:
`quantized_start = round(start / quantization) * quantization`,
`deviation = start - quantized_start`. -/
def groove_record (quantization : ℚ) (note : NoteEvent) : GrooveRecord :=
  ⟨note.start, note.start - (pyround (note.start / quantization) : ℚ) * quantization⟩

/-- Embedding of `analyze_groove(note_events, quantization)`: the division executes
once per note, so `quantization = 0` raises iff the list is nonempty. -/
def analyze_groove (note_events : List NoteEvent) (quantization : ℚ) :
    Except AnalysisError (List GrooveRecord) :=
  if note_events.isEmpty then .ok []
  else if quantization = 0 then .error .zeroDivision
  else .ok (note_events.map (groove_record quantization))

example : pyround (3/2) = 2 := by norm_num [pyround]
example : pyround (1/2) = 0 := by norm_num [pyround]
example : pyround (5/2) = 2 := by norm_num [pyround]
example : quantize_ioi (3/8) (1/4) = 1/2 := by norm_num [quantize_ioi, pyround]
example : quantize_ioi (1/8) (1/4) = 0 := by norm_num [quantize_ioi, pyround]
example : analyze_note_density [⟨0, 2, 60, 100, 0⟩] 1 = .ok ([0, 1], [1, 1]) := by
  have hceil : Int.toNat ⌈(2:ℚ)/1⌉ = 2 := by
    have h : ⌈(2:ℚ)/1⌉ = 2 := by norm_num
    rw [h]
    decide
  simp only [analyze_note_density, max_end, np_arange, List.foldl]
  rw [hceil]
  norm_num [List.range_succ, List.filter]
example : analyze_groove [⟨3/8, 1/2, 60, 100, 0⟩] (1/4) = .ok [⟨3/8, -(1/8)⟩] := by
  norm_num [analyze_groove, groove_record, pyround]
example :
    find_rhythm_patterns [⟨0, 1, 60, 100, 0⟩, ⟨1/4, 1, 60, 100, 0⟩, ⟨1/2, 1, 60, 100, 0⟩,
      ⟨3/4, 1, 60, 100, 0⟩, ⟨1, 2, 60, 100, 0⟩] (1/4) =
    .ok {[1/4, 1/4, 1/4, 1/4]} := by
  norm_num [find_rhythm_patterns, find_rhythm_grams, quantized_iois, gram_step,
    quantize_ioi, pyround]

/-- After folding the rolling-buffer step over any IOI list from a state
whose buffer holds at most 3 entries, the number of recorded 4-grams has
grown by `buffer + iois - 3` (truncated at zero). -/
theorem gram_step_fold_length (l : List ℚ) (rec : List (List ℚ)) (cur : List ℚ)
    (h : cur.length ≤ 3) :
    ((l.foldl gram_step (rec, cur)).1).length = rec.length + (cur.length + l.length - 3) := by
  induction l generalizing rec cur with
  | nil => simp; omega
  | cons x xs ih =>
    simp only [List.foldl_cons, gram_step]
    by_cases hc : (cur ++ [x]).length = 4
    · rw [if_pos hc]
      have hc' : cur.length + 1 = 4 := by simpa using hc
      have h3 : ((cur ++ [x]).drop 1).length ≤ 3 := by
        simp only [List.length_drop, List.length_append, List.length_cons, List.length_nil]
        omega
      rw [ih _ _ h3]
      simp only [List.length_append, List.length_drop, List.length_cons, List.length_nil]
      omega
    · rw [if_neg hc]
      have hc' : cur.length + 1 ≠ 4 := by simpa using hc
      have h3 : (cur ++ [x]).length ≤ 3 := by
        simp only [List.length_append, List.length_cons, List.length_nil]
        omega
      rw [ih _ _ h3]
      simp only [List.length_append, List.length_cons, List.length_nil]
      omega

/-- There are `len - 1` inter-onset intervals. -/
theorem quantized_iois_length (notes : List NoteEvent) (q : ℚ) :
    (quantized_iois notes q).length = notes.length - 1 := by
  simp only [quantized_iois, List.length_map, List.length_zip, List.length_tail]
  omega

/-- The loop of `find_rhythm_patterns` records `len - 4` 4-grams. -/
theorem find_rhythm_grams_length (notes : List NoteEvent) (q : ℚ) :
    (find_rhythm_grams notes q).length = notes.length - 4 := by
  unfold find_rhythm_grams
  rw [gram_step_fold_length _ [] [] (by simp)]
  rw [quantized_iois_length]
  simp only [List.length_nil]
  omega

/-- C1: for a list of N notes sorted ascending by start and quantization
> 0, `find_rhythm_patterns` records exactly `max 0 (N-4)` overlapping
4-grams, the sum of all histogram counts equals that number, and with
fewer than 5 notes the histogram is empty. -/
theorem pattern_histogram_size (notes : List NoteEvent) (q : ℚ)
    (hsorted : notes.Pairwise (fun a b => a.start ≤ b.start)) (hq : 0 < q) :
    ∃ hist : Multiset (List ℚ), find_rhythm_patterns notes q = .ok hist ∧
      Multiset.card hist = notes.length - 4 ∧
      (∑ g in hist.toFinset, hist.count g) = notes.length - 4 ∧
      (notes.length < 5 → hist = 0) := by
  refine ⟨↑(find_rhythm_grams notes q), ?_, ?_, ?_, ?_⟩
  · rw [find_rhythm_patterns, if_neg]
    exact fun hc => hq.ne' hc.2
  · rw [Multiset.coe_card]
    exact find_rhythm_grams_length notes q
  · rw [Multiset.toFinset_sum_count_eq, Multiset.coe_card]
    exact find_rhythm_grams_length notes q
  · intro h5
    have hlen : (find_rhythm_grams notes q).length = 0 := by
      rw [find_rhythm_grams_length]
      omega
    rw [← Multiset.card_eq_zero, Multiset.coe_card]
    exact hlen

/-- Witness for C1: five sorted notes a quarter apart, quantization 1/4. -/
theorem pattern_histogram_size_witness :
    ∃ hist : Multiset (List ℚ),
      find_rhythm_patterns [⟨0, 1, 60, 100, 0⟩, ⟨1/4, 1, 60, 100, 0⟩, ⟨1/2, 1, 60, 100, 0⟩,
        ⟨3/4, 1, 60, 100, 0⟩, ⟨1, 2, 60, 100, 0⟩] (1/4) = .ok hist ∧
      Multiset.card hist =
        [⟨0, 1, 60, 100, 0⟩, ⟨1/4, 1, 60, 100, 0⟩, ⟨1/2, 1, 60, 100, 0⟩,
          ⟨3/4, 1, 60, 100, 0⟩, (⟨1, 2, 60, 100, 0⟩ : NoteEvent)].length - 4 ∧
      (∑ g in hist.toFinset, hist.count g) =
        [⟨0, 1, 60, 100, 0⟩, ⟨1/4, 1, 60, 100, 0⟩, ⟨1/2, 1, 60, 100, 0⟩,
          ⟨3/4, 1, 60, 100, 0⟩, (⟨1, 2, 60, 100, 0⟩ : NoteEvent)].length - 4 ∧
      ([⟨0, 1, 60, 100, 0⟩, ⟨1/4, 1, 60, 100, 0⟩, ⟨1/2, 1, 60, 100, 0⟩,
          ⟨3/4, 1, 60, 100, 0⟩, (⟨1, 2, 60, 100, 0⟩ : NoteEvent)].length < 5 → hist = 0) :=
  pattern_histogram_size _ _ (by norm_num [List.pairwise_cons]) (by norm_num)

/-- C10: for notes in any order and any nonzero quantization,
`find_rhythm_patterns` completes without failure and the histogram
counts sum to `max 0 (N-4)`. -/
theorem pattern_total_count_any_order (notes : List NoteEvent) (q : ℚ) (hq : q ≠ 0) :
    ∃ hist : Multiset (List ℚ), find_rhythm_patterns notes q = .ok hist ∧
      Multiset.card hist = notes.length - 4 ∧
      (∑ g in hist.toFinset, hist.count g) = notes.length - 4 := by
  refine ⟨↑(find_rhythm_grams notes q), ?_, ?_, ?_⟩
  · rw [find_rhythm_patterns, if_neg]
    exact fun hc => hq hc.2
  · rw [Multiset.coe_card]
    exact find_rhythm_grams_length notes q
  · rw [Multiset.toFinset_sum_count_eq, Multiset.coe_card]
    exact find_rhythm_grams_length notes q

/-- Witness for C10: six unsorted notes (IOIs partly negative),
negative quantization. -/
theorem pattern_total_count_any_order_witness :
    ∃ hist : Multiset (List ℚ),
      find_rhythm_patterns [⟨1, 2, 60, 100, 0⟩, ⟨0, 1, 60, 100, 0⟩, ⟨1/2, 1, 60, 100, 0⟩,
        ⟨1/4, 1, 60, 100, 0⟩, ⟨3/4, 1, 60, 100, 0⟩, ⟨1/8, 1, 60, 100, 0⟩] (-(1/4)) =
        .ok hist ∧
      Multiset.card hist =
        [⟨1, 2, 60, 100, 0⟩, ⟨0, 1, 60, 100, 0⟩, ⟨1/2, 1, 60, 100, 0⟩,
          ⟨1/4, 1, 60, 100, 0⟩, ⟨3/4, 1, 60, 100, 0⟩, (⟨1/8, 1, 60, 100, 0⟩ : NoteEvent)].length
          - 4 ∧
      (∑ g in hist.toFinset, hist.count g) =
        [⟨1, 2, 60, 100, 0⟩, ⟨0, 1, 60, 100, 0⟩, ⟨1/2, 1, 60, 100, 0⟩,
          ⟨1/4, 1, 60, 100, 0⟩, ⟨3/4, 1, 60, 100, 0⟩, (⟨1/8, 1, 60, 100, 0⟩ : NoteEvent)].length
          - 4 :=
  pattern_total_count_any_order _ _ (by norm_num)

/-- C7: `find_rhythm_patterns` is deterministic — equal note sequences
and equal quantizations yield equal results, hence histograms with the
same keys and counts. -/
theorem pattern_determinism (n₁ n₂ : List NoteEvent) (q₁ q₂ : ℚ)
    (hn : n₁ = n₂) (hq : q₁ = q₂) :
    find_rhythm_patterns n₁ q₁ = find_rhythm_patterns n₂ q₂ ∧
    ∀ h₁ h₂ : Multiset (List ℚ), find_rhythm_patterns n₁ q₁ = .ok h₁ →
      find_rhythm_patterns n₂ q₂ = .ok h₂ →
      h₁.toFinset = h₂.toFinset ∧ ∀ g, h₁.count g = h₂.count g := by
  subst hn
  subst hq
  refine ⟨rfl, ?_⟩
  intro h₁ h₂ e₁ e₂
  rw [e₁] at e₂
  injection e₂ with e
  subst e
  exact ⟨rfl, fun _ => rfl⟩

/-- Witness for C7: two textually identical runs on a 5-note input. -/
theorem pattern_determinism_witness :
    find_rhythm_patterns [⟨0, 1, 60, 100, 0⟩, ⟨1/4, 1, 60, 100, 0⟩, ⟨1/2, 1, 60, 100, 0⟩,
        ⟨3/4, 1, 60, 100, 0⟩, ⟨1, 2, 60, 100, 0⟩] (1/4) =
      find_rhythm_patterns [⟨0, 1, 60, 100, 0⟩, ⟨1/4, 1, 60, 100, 0⟩, ⟨1/2, 1, 60, 100, 0⟩,
        ⟨3/4, 1, 60, 100, 0⟩, ⟨1, 2, 60, 100, 0⟩] (1/4) ∧
    ∀ h₁ h₂ : Multiset (List ℚ),
      find_rhythm_patterns [⟨0, 1, 60, 100, 0⟩, ⟨1/4, 1, 60, 100, 0⟩, ⟨1/2, 1, 60, 100, 0⟩,
        ⟨3/4, 1, 60, 100, 0⟩, ⟨1, 2, 60, 100, 0⟩] (1/4) = .ok h₁ →
      find_rhythm_patterns [⟨0, 1, 60, 100, 0⟩, ⟨1/4, 1, 60, 100, 0⟩, ⟨1/2, 1, 60, 100, 0⟩,
        ⟨3/4, 1, 60, 100, 0⟩, ⟨1, 2, 60, 100, 0⟩] (1/4) = .ok h₂ →
      h₁.toFinset = h₂.toFinset ∧ ∀ g, h₁.count g = h₂.count g :=
  pattern_determinism _ _ _ _ rfl rfl

/-- The i-th sample point of `np.arange(0, stop, step)` is `i * step`. -/
theorem np_arange_get (stop step : ℚ) (i : ℕ) (h : i < (np_arange stop step).length) :
    (np_arange stop step).get ⟨i, h⟩ = (i : ℚ) * step := by
  unfold np_arange at h ⊢
  rw [List.get_map, List.get_range]

/-- The list `np.arange(0, stop, step)` has `max 0 ⌈stop / step⌉` points. -/
theorem np_arange_length (stop step : ℚ) :
    (np_arange stop step).length = Int.toNat ⌈stop / step⌉ := by
  unfold np_arange
  rw [List.length_map, List.length_range]

/-- For a positive step, `np.arange(0, stop, step)` contains exactly the
multiples `k * step` with `k * step < stop`: the k-th multiple is in
range iff `k` is below the produced length. -/
theorem np_arange_length_char (stop step : ℚ) (hstep : 0 < step) (k : ℕ) :
    (k : ℚ) * step < stop ↔ k < (np_arange stop step).length := by
  rw [np_arange_length, Int.lt_toNat, Int.lt_ceil, lt_div_iff₀ hstep]
  push_cast
  exact Iff.rfl

/-- The initial accumulator never exceeds the running maximum. -/
theorem foldl_max_init_le (l : List NoteEvent) (a : ℚ) :
    a ≤ l.foldl (fun m nt => max m nt.«end») a := by
  induction l generalizing a with
  | nil => simp
  | cons x xs ih => exact le_trans (le_max_left a x.«end») (ih (max a x.«end»))

/-- Every member's end time is bounded by the running maximum. -/
theorem foldl_max_mem_le (l : List NoteEvent) (a : ℚ) (nt : NoteEvent) (h : nt ∈ l) :
    nt.«end» ≤ l.foldl (fun m nt => max m nt.«end») a := by
  induction l generalizing a with
  | nil => cases h
  | cons x xs ih =>
    rcases List.mem_cons.mp h with rfl | hmem
    · exact le_trans (le_max_right a nt.«end») (foldl_max_init_le xs _)
    · exact ih _ hmem

/-- The running maximum is the accumulator or some member's end time. -/
theorem foldl_max_attained (l : List NoteEvent) (a : ℚ) :
    l.foldl (fun m nt => max m nt.«end») a = a ∨
    ∃ nt ∈ l, l.foldl (fun m nt => max m nt.«end») a = nt.«end» := by
  induction l generalizing a with
  | nil => exact Or.inl rfl
  | cons x xs ih =>
    rcases ih (max a x.«end») with h | ⟨nt, hmem, heq⟩
    · rcases max_choice a x.«end» with hm | hm
      · exact Or.inl (by rw [List.foldl_cons, h, hm])
      · exact Or.inr ⟨x, List.mem_cons_self _ _, by rw [List.foldl_cons, h, hm]⟩
    · exact Or.inr ⟨nt, List.mem_cons_of_mem _ hmem, by rw [List.foldl_cons, heq]⟩

/-- The value `max_time` bounds every note's end. -/
theorem le_max_end (notes : List NoteEvent) (nt : NoteEvent) (h : nt ∈ notes) :
    nt.«end» ≤ max_end notes := by
  cases notes with
  | nil => cases h
  | cons n ns =>
    rcases List.mem_cons.mp h with rfl | hmem
    · exact foldl_max_init_le ns nt.«end»
    · exact foldl_max_mem_le ns n.«end» nt hmem

/-- On a nonempty list, `max_time` is some note's end. -/
theorem max_end_mem (notes : List NoteEvent) (h : notes ≠ []) :
    max_end notes ∈ notes.map (fun nt => nt.«end») := by
  cases notes with
  | nil => exact absurd rfl h
  | cons n ns =>
    rcases foldl_max_attained ns n.«end» with heq | ⟨nt, hmem, heq⟩
    · rw [max_end, heq]
      exact List.mem_map_of_mem _ (List.mem_cons_self _ _)
    · rw [max_end, heq]
      exact List.mem_map_of_mem _ (List.mem_cons_of_mem _ hmem)

/-- C2: for a nonempty note list and positive window, the density
profiler returns parallel sequences of equal length; the sample points
are exactly `0, w, 2w, …` strictly below `max_time = max note.end`; and
each count is the number of notes with `start ≤ t ≤ end`. -/
theorem density_profile_spec (notes : List NoteEvent) (w : ℚ)
    (hne : notes ≠ []) (hw : 0 < w) :
    ∃ times counts, analyze_note_density notes w = .ok (times, counts) ∧
      times.length = counts.length ∧
      (∀ i (h : i < times.length), times.get ⟨i, h⟩ = (i : ℚ) * w) ∧
      (∀ k : ℕ, ((k : ℚ) * w < max_end notes ↔ k < times.length)) ∧
      (∀ nt ∈ notes, nt.«end» ≤ max_end notes) ∧
      max_end notes ∈ notes.map (fun nt => nt.«end») ∧
      (∀ i (h : i < counts.length),
        counts.get ⟨i, h⟩ =
          (notes.filter (fun nt =>
            decide (nt.start ≤ (i : ℚ) * w ∧ (i : ℚ) * w ≤ nt.«end»))).length) := by
  refine ⟨np_arange (max_end notes) w,
    (np_arange (max_end notes) w).map (fun t =>
      (notes.filter (fun nt => decide (nt.start ≤ t ∧ t ≤ nt.«end»))).length),
    ?_, by simp, np_arange_get _ _, fun k => np_arange_length_char _ _ hw k,
    fun nt hm => le_max_end notes nt hm, max_end_mem notes hne, ?_⟩
  · rw [analyze_note_density, if_neg, if_neg hw.ne']
    simp [List.isEmpty_iff, hne]
  · intro i h
    have h' : i < (np_arange (max_end notes) w).length := by
      simpa using h
    rw [List.get_map]
    rw [np_arange_get _ _ i h']

/-- Witness for C2: a single note spanning [0,2] with window 1 — the
profile is `times = [0,1]`, `counts = [1,1]` as the claim states. -/
theorem density_profile_spec_witness :
    analyze_note_density [⟨0, 2, 60, 100, 0⟩] 1 = .ok ([0, 1], [1, 1]) ∧
    (∃ times counts, analyze_note_density [⟨0, 2, 60, 100, 0⟩] 1 = .ok (times, counts) ∧
      times.length = counts.length ∧
      (∀ i (h : i < times.length), times.get ⟨i, h⟩ = (i : ℚ) * 1) ∧
      (∀ k : ℕ, ((k : ℚ) * 1 < max_end [⟨0, 2, 60, 100, 0⟩] ↔ k < times.length)) ∧
      (∀ nt ∈ [(⟨0, 2, 60, 100, 0⟩ : NoteEvent)], nt.«end» ≤ max_end [⟨0, 2, 60, 100, 0⟩]) ∧
      max_end [⟨0, 2, 60, 100, 0⟩] ∈
        [(⟨0, 2, 60, 100, 0⟩ : NoteEvent)].map (fun nt => nt.«end») ∧
      (∀ i (h : i < counts.length),
        counts.get ⟨i, h⟩ =
          ([(⟨0, 2, 60, 100, 0⟩ : NoteEvent)].filter (fun nt =>
            decide (nt.start ≤ (i : ℚ) * 1 ∧ (i : ℚ) * 1 ≤ nt.«end»))).length)) :=
  ⟨by
    have hceil : Int.toNat ⌈(2:ℚ)/1⌉ = 2 := by
      have h : ⌈(2:ℚ)/1⌉ = 2 := by norm_num
      rw [h]
      decide
    simp only [analyze_note_density, max_end, np_arange, List.foldl]
    rw [hceil]
    norm_num [List.range_succ, List.filter],
   density_profile_spec _ _ (by simp) (by norm_num)⟩

/-- Python's `x % 1.0` is nonnegative: it equals `x - ⌊x⌋`. -/
theorem pymod_one_nonneg (x : ℚ) : 0 ≤ pymod x 1 := by
  simp only [pymod, div_one, one_mul]
  exact sub_nonneg.mpr (Int.floor_le x)

/-- Python's `x % 1.0` is strictly below 1. -/
theorem pymod_one_lt_one (x : ℚ) : pymod x 1 < 1 := by
  simp only [pymod, div_one, one_mul]
  have := Int.lt_floor_add_one x
  linarith

/-- C3: for any nonzero `beats_per_bar` and notes with velocities in the
MIDI range 0–127, the syncopation scorer emits a record for a note iff
`NOT (fractional < 0.1) AND velocity/127 > 0.5` where
`fractional = (start mod beats_per_bar) mod 1`; each emitted score is
`(velocity/127) * (1 - fractional)` and lies in `[0, 1]`. -/
theorem syncopation_spec (notes : List NoteEvent) (bpb : ℚ) (hb : bpb ≠ 0)
    (hv : ∀ nt ∈ notes, nt.velocity ≤ 127) :
    ∃ recs, analyze_syncopation notes bpb = .ok recs ∧
      recs = notes.filterMap (syncopation_emit bpb) ∧
      (∀ nt : NoteEvent,
        (syncopation_emit bpb nt).isSome = true ↔
          (¬ pymod (pymod nt.start bpb) 1 < 1/10 ∧ 1/2 < (nt.velocity : ℚ) / 127)) ∧
      (∀ (nt : NoteEvent) (r : SyncopationRecord), syncopation_emit bpb nt = some r →
        r.time = nt.start ∧
        r.score = (nt.velocity : ℚ) / 127 * (1 - pymod (pymod nt.start bpb) 1)) ∧
      ∀ r ∈ recs, 0 ≤ r.score ∧ r.score ≤ 1 := by
  refine ⟨notes.filterMap (syncopation_emit bpb), ?_, rfl, ?_, ?_, ?_⟩
  · cases notes with
    | nil => rfl
    | cons n ns => simp [analyze_syncopation, hb]
  · intro nt
    by_cases hcond : ¬ pymod (pymod nt.start bpb) 1 < 1/10 ∧ 1/2 < (nt.velocity : ℚ) / 127
    · simp [syncopation_emit, hcond]
    · simp [syncopation_emit, hcond]
  · intro nt r hr
    simp only [syncopation_emit] at hr
    split_ifs at hr with hcond
    · injection hr with hr
      subst hr
      exact ⟨rfl, rfl⟩
  · intro r hr
    rcases List.mem_filterMap.mp hr with ⟨nt, hmem, hemit⟩
    simp only [syncopation_emit] at hemit
    split_ifs at hemit with hcond
    case _ =>
      injection hemit with hemit
      subst hemit
      have hvf0 : (0 : ℚ) ≤ (nt.velocity : ℚ) / 127 := by positivity
      have hvf1 : (nt.velocity : ℚ) / 127 ≤ 1 := by
        rw [div_le_one (by norm_num)]
        exact_mod_cast hv nt hmem
      have hf0 : 0 ≤ pymod (pymod nt.start bpb) 1 := pymod_one_nonneg _
      have hf1 : pymod (pymod nt.start bpb) 1 < 1 := pymod_one_lt_one _
      constructor
      · exact mul_nonneg hvf0 (by linarith)
      · calc (nt.velocity : ℚ) / 127 * (1 - pymod (pymod nt.start bpb) 1)
            ≤ 1 * 1 := mul_le_mul hvf1 (by linarith) (by linarith) (by norm_num)
        _ = 1 := one_mul 1

/-- Witness for C3: one loud off-beat note (start 1/2, velocity 100). -/
theorem syncopation_spec_witness :
    ∃ recs, analyze_syncopation [⟨1/2, 1, 60, 100, 0⟩] 4 = .ok recs ∧
      recs = [(⟨1/2, 1, 60, 100, 0⟩ : NoteEvent)].filterMap (syncopation_emit 4) ∧
      (∀ nt : NoteEvent,
        (syncopation_emit 4 nt).isSome = true ↔
          (¬ pymod (pymod nt.start 4) 1 < 1/10 ∧ 1/2 < (nt.velocity : ℚ) / 127)) ∧
      (∀ (nt : NoteEvent) (r : SyncopationRecord), syncopation_emit 4 nt = some r →
        r.time = nt.start ∧
        r.score = (nt.velocity : ℚ) / 127 * (1 - pymod (pymod nt.start 4) 1)) ∧
      ∀ r ∈ recs, 0 ≤ r.score ∧ r.score ≤ 1 :=
  syncopation_spec _ _ (by norm_num) (by
    intro nt h
    rcases List.mem_singleton.mp h with rfl
    norm_num)

/-- C9: under the MIDI-range precondition `velocity ≤ 127`, every
emitted syncopation score lies in `(0, 0.9]` — strictly positive and at
most 9/10, tighter than the `[0, 1]` bound of the spec. -/
theorem syncopation_score_tight (notes : List NoteEvent) (bpb : ℚ) (hb : bpb ≠ 0)
    (hv : ∀ nt ∈ notes, nt.velocity ≤ 127) :
    ∃ recs, analyze_syncopation notes bpb = .ok recs ∧
      ∀ r ∈ recs, 0 < r.score ∧ r.score ≤ 9/10 := by
  refine ⟨notes.filterMap (syncopation_emit bpb), ?_, ?_⟩
  · cases notes with
    | nil => rfl
    | cons n ns => simp [analyze_syncopation, hb]
  · intro r hr
    rcases List.mem_filterMap.mp hr with ⟨nt, hmem, hemit⟩
    simp only [syncopation_emit] at hemit
    split_ifs at hemit with hcond
    case _ =>
      injection hemit with hemit
      subst hemit
      have hvf : 1/2 < (nt.velocity : ℚ) / 127 := hcond.2
      have hvf1 : (nt.velocity : ℚ) / 127 ≤ 1 := by
        rw [div_le_one (by norm_num)]
        exact_mod_cast hv nt hmem
      have hfrac : 1/10 ≤ pymod (pymod nt.start bpb) 1 := le_of_not_lt hcond.1
      have hf1 : pymod (pymod nt.start bpb) 1 < 1 := pymod_one_lt_one _
      constructor
      · exact mul_pos (by linarith) (by linarith)
      · calc (nt.velocity : ℚ) / 127 * (1 - pymod (pymod nt.start bpb) 1)
            ≤ 1 * (9/10) := mul_le_mul hvf1 (by linarith) (by linarith) (by norm_num)
        _ = 9/10 := one_mul _

/-- Witness for C9: the same loud off-beat note as for C3. -/
theorem syncopation_score_tight_witness :
    ∃ recs, analyze_syncopation [⟨1/2, 1, 60, 100, 0⟩] 4 = .ok recs ∧
      ∀ r ∈ recs, 0 < r.score ∧ r.score ≤ 9/10 :=
  syncopation_score_tight _ _ (by norm_num) (by
    intro nt h
    rcases List.mem_singleton.mp h with rfl
    norm_num)

/-- C5: on an empty note list all four analysis functions succeed with
empty results, for every parameter value (even degenerate ones): the
divisions sit inside the per-note loops, which never run. -/
theorem empty_input_no_failure (w q₁ q₂ bpb : ℚ) :
    analyze_note_density [] w = .ok ([], []) ∧
    find_rhythm_patterns [] q₁ = .ok 0 ∧
    analyze_syncopation [] bpb = .ok [] ∧
    analyze_groove [] q₂ = .ok [] := by
  refine ⟨rfl, ?_, rfl, rfl⟩
  rw [find_rhythm_patterns, if_neg]
  · simp [find_rhythm_grams, quantized_iois]
  · simp

/-- Python's `round` lands within half a unit of its argument (the
halfway cases land exactly half a unit away, on the even side). -/
theorem pyround_sub_bounds (x : ℚ) :
    -(1/2) ≤ x - (pyround x : ℚ) ∧ x - (pyround x : ℚ) ≤ 1/2 := by
  have h1 : (⌊x⌋ : ℚ) ≤ x := Int.floor_le x
  have h2 : x < ⌊x⌋ + 1 := Int.lt_floor_add_one x
  unfold pyround
  split_ifs with ha hb hc
  · push_cast
    constructor <;> linarith
  · push_cast
    constructor <;> linarith
  · push_cast
    constructor <;> linarith
  · push_cast
    constructor <;> linarith

/-- C4 (amended): for quantization q > 0 every groove deviation lies in
the closed interval [-q/2, q/2]; under round-half-to-even both endpoints
are attainable, so the claimed half-open interval (-q/2, q/2] is wrong
on the lower end. -/
theorem groove_deviation_bound (notes : List NoteEvent) (q : ℚ) (hq : 0 < q) :
    ∃ recs, analyze_groove notes q = .ok recs ∧
      ∀ r ∈ recs, -(q/2) ≤ r.deviation ∧ r.deviation ≤ q/2 := by
  refine ⟨notes.map (groove_record q), ?_, ?_⟩
  · cases notes with
    | nil => rfl
    | cons n ns => simp [analyze_groove, hq.ne']
  · intro r hr
    rcases List.mem_map.mp hr with ⟨nt, _, rfl⟩
    simp only [groove_record]
    have h := pyround_sub_bounds (nt.start / q)
    have hx : nt.start = nt.start / q * q := (div_mul_cancel₀ _ hq.ne').symm
    have hdev : nt.start - (pyround (nt.start / q) : ℚ) * q =
        (nt.start / q - (pyround (nt.start / q) : ℚ)) * q := by
      rw [sub_mul]
      rw [← hx]
    rw [hdev]
    constructor
    · have := mul_le_mul_of_nonneg_right h.1 hq.le
      linarith
    · have := mul_le_mul_of_nonneg_right h.2 hq.le
      linarith

/-- Witness for C4 (amended): the note at 3/8 with quantization 1/4. -/
theorem groove_deviation_bound_witness :
    ∃ recs, analyze_groove [⟨3/8, 1/2, 60, 100, 0⟩] (1/4) = .ok recs ∧
      ∀ r ∈ recs, -((1:ℚ)/4/2) ≤ r.deviation ∧ r.deviation ≤ (1:ℚ)/4/2 :=
  groove_deviation_bound _ _ (by norm_num)

/-- Counterexample to C4 as stated: start 3/8 with quantization 1/4 has
3/8 / (1/4) = 1.5, which rounds half-to-even to 2, so the deviation is
3/8 - 1/2 = -1/8 = -q/2 — attained, hence outside the claimed strictly
half-open interval (-q/2, q/2]. -/
theorem groove_deviation_counterexample :
    analyze_groove [⟨3/8, 1/2, 60, 100, 0⟩] (1/4) = .ok [⟨3/8, -(1/8)⟩] ∧
    ¬ (-((1:ℚ)/4)/2 < -(1/8)) := by
  constructor
  · norm_num [analyze_groove, groove_record, pyround]
  · norm_num

/-- Halfway inputs round to the even neighbour. -/
theorem pyround_halfway (k : ℤ) :
    pyround ((k : ℚ) + 1/2) = if k % 2 = 0 then k else k + 1 := by
  have hf : ⌊(k : ℚ) + 1/2⌋ = k := by
    rw [Int.floor_int_add]
    norm_num
  have hsub : (k : ℚ) + 1/2 - (⌊(k : ℚ) + 1/2⌋ : ℚ) = 1/2 := by
    rw [hf]
    ring
  unfold pyround
  rw [hsub, hf]
  norm_num

/-- C8: `find_rhythm_patterns` quantizes IOIs with round-half-to-even:
whenever ioi/quantization is exactly halfway between two integers the
even one is chosen; e.g. with quantization 1/4, an IOI of 3/8 quantizes
to 1/2 while an IOI of 1/8 quantizes to 0. -/
theorem pattern_quantization_half_even :
    (∀ (x q : ℚ) (k : ℤ), x / q = (k : ℚ) + 1/2 →
      quantize_ioi x q = (((if k % 2 = 0 then k else k + 1) : ℤ) : ℚ) * q) ∧
    quantize_ioi (3/8) (1/4) = 1/2 ∧ quantize_ioi (1/8) (1/4) = 0 := by
  refine ⟨?_, ?_, ?_⟩
  · intro x q k h
    rw [quantize_ioi, h, pyround_halfway]
  · norm_num [quantize_ioi, pyround]
  · norm_num [quantize_ioi, pyround]

/-- Witness for C8: the IOI 3/8 against quantization 1/4 is the halfway
case 3/2, rounded to the even integer 2. -/
theorem pattern_quantization_half_even_witness :
    (3 : ℚ)/8 / (1/4) = ((1 : ℤ) : ℚ) + 1/2 ∧
    quantize_ioi (3/8) (1/4) = (((if (1 : ℤ) % 2 = 0 then (1 : ℤ) else 1 + 1) : ℤ) : ℚ) * (1/4) :=
  ⟨by norm_num, pattern_quantization_half_even.1 (3/8) (1/4) 1 (by norm_num)⟩

/-- C6 (amended): none of the functions validates its parameter. A zero
window/quantization raises the division-by-zero failure only when the
division is actually reached (nonempty input for density and groove, at
least 2 notes for patterns); a negative parameter never fails — density
yields an empty profile for positive max time, and the pattern finder
and groove analyzer simply compute on the negative grid. No
InvalidParameter condition exists anywhere. -/
theorem degenerate_params_behavior (notes : List NoteEvent) (q w : ℚ) :
    (q ≠ 0 → (∃ h, find_rhythm_patterns notes q = .ok h) ∧
      (∃ l, analyze_groove notes q = .ok l)) ∧
    (w ≠ 0 → ∃ p, analyze_note_density notes w = .ok p) ∧
    (2 ≤ notes.length → find_rhythm_patterns notes 0 = .error .zeroDivision) ∧
    (notes ≠ [] → analyze_groove notes 0 = .error .zeroDivision ∧
      analyze_note_density notes 0 = .error .zeroDivision) := by
  refine ⟨?_, ?_, ?_, ?_⟩
  · intro hq
    constructor
    · exact ⟨_, by rw [find_rhythm_patterns, if_neg (fun hc => hq hc.2)]⟩
    · cases notes with
      | nil => exact ⟨[], rfl⟩
      | cons n ns =>
        refine ⟨(n :: ns).map (groove_record q), ?_⟩
        rw [analyze_groove, if_neg (by simp), if_neg hq]
  · intro hw
    cases notes with
    | nil => exact ⟨([], []), rfl⟩
    | cons n ns =>
      refine ⟨(np_arange (max_end (n :: ns)) w,
        (np_arange (max_end (n :: ns)) w).map (fun t =>
          ((n :: ns).filter (fun nt => decide (nt.start ≤ t ∧ t ≤ nt.«end»))).length)), ?_⟩
      rw [analyze_note_density, if_neg (by simp), if_neg hw]
  · intro hlen
    rw [find_rhythm_patterns, if_pos ⟨hlen, rfl⟩]
  · intro hne
    cases notes with
    | nil => exact absurd rfl hne
    | cons n ns => exact ⟨by simp [analyze_groove], by simp [analyze_note_density]⟩

/-- Witness for C6 (amended): two notes, parameter -1 (no failure) and
parameter 0 (division-by-zero failure). -/
theorem degenerate_params_behavior_witness :
    ((-1 : ℚ) ≠ 0 →
      (∃ h, find_rhythm_patterns [⟨0, 1, 60, 100, 0⟩, ⟨1/2, 1, 60, 100, 0⟩] (-1) = .ok h) ∧
      (∃ l, analyze_groove [⟨0, 1, 60, 100, 0⟩, ⟨1/2, 1, 60, 100, 0⟩] (-1) = .ok l)) ∧
    ((-1 : ℚ) ≠ 0 →
      ∃ p, analyze_note_density [⟨0, 1, 60, 100, 0⟩, ⟨1/2, 1, 60, 100, 0⟩] (-1) = .ok p) ∧
    (2 ≤ [⟨0, 1, 60, 100, 0⟩, (⟨1/2, 1, 60, 100, 0⟩ : NoteEvent)].length →
      find_rhythm_patterns [⟨0, 1, 60, 100, 0⟩, ⟨1/2, 1, 60, 100, 0⟩] 0 =
        .error .zeroDivision) ∧
    ([⟨0, 1, 60, 100, 0⟩, (⟨1/2, 1, 60, 100, 0⟩ : NoteEvent)] ≠ [] →
      analyze_groove [⟨0, 1, 60, 100, 0⟩, ⟨1/2, 1, 60, 100, 0⟩] 0 = .error .zeroDivision ∧
      analyze_note_density [⟨0, 1, 60, 100, 0⟩, ⟨1/2, 1, 60, 100, 0⟩] 0 =
        .error .zeroDivision) :=
  degenerate_params_behavior _ _ _

/-- Counterexample to C6 as stated: with the negative window -1 on a
nonempty note list, the density profiler does not fail at all — it
returns two empty sequences (numpy's arange is empty for a negative step
and positive stop), so no InvalidParameter failure occurs. -/
theorem invalid_parameter_counterexample :
    analyze_note_density [⟨0, 1, 60, 100, 0⟩] (-1) = .ok ([], []) := by
  have htn : Int.toNat ⌈(1:ℚ)/(-1)⌉ = 0 := by
    have h : ⌈(1:ℚ)/(-1)⌉ = -1 := by
      have h1 : (1:ℚ)/(-1) = ((-1 : ℤ) : ℚ) := by norm_num
      rw [h1, Int.ceil_intCast]
    rw [h]
    decide
  simp only [analyze_note_density, max_end, np_arange, List.foldl]
  rw [htn]
  norm_num
